import Mathlib

/-!
Verification of the build-test-validate orchestration pipeline of
`xfe-control-sim` (files `misc/launch_tests.py` and
`misc/xflow_shared_functions.py`).

Log text is modelled as a `List Char`; `splitNL` embeds Python's
`content.split("\n")`, `blankLine` embeds `not line.strip()`, and
`containsSub` embeds Python's substring operator `in`.
-/

namespace XfeControlSim

/-- Embedding of Python prefix testing: `pat` is an initial segment of `s`. -/
def prefAt : List Char → List Char → Bool
  | [], _ => true
  | _ :: _, [] => false
  | p :: ps, c :: cs => if p = c then prefAt ps cs else false

/-- Embedding of Python's substring operator `pat in s`. -/
def containsSub (pat : List Char) : List Char → Bool
  | [] => prefAt pat []
  | c :: cs => prefAt pat (c :: cs) || containsSub pat cs

/-- Embedding of Python's `content.split("\n")`. -/
def splitNL : List Char → List (List Char)
  | [] => [[]]
  | c :: cs =>
    if c = '\n' then [] :: splitNL cs
    else
      match splitNL cs with
      | [] => [[c]]
      | s :: ss => (c :: s) :: ss

/-- Embedding of Python's `not line.strip()`: the line is whitespace-only. -/
def blankLine (l : List Char) : Bool := l.all (fun c => c.isWhitespace)

/-- `[line for line in content.split("\n") if line.strip()]`
(launch_tests.py line 275): the non-blank lines of the log, in order. -/
def contentLines (content : List Char) : List (List Char) :=
  (splitNL content).filter (fun l => ! blankLine l)

/-- `pat in content` for a Lean string literal pattern. -/
def strContains (content : List Char) (pat : String) : Bool :=
  containsSub pat.toList content

/-- The two test kinds dispatched by `launch_tests.py`:
`"discon"` and `"xfe_control_sim"` (the sim kind). -/
inductive TestType
  | discon
  | xfe_control_sim
deriving DecidableEq, Repr

/-- Embedding of the body of `validate_log_file` (launch_tests.py lines
271-306) once the file exists and its content has been read: `log_ok`
starts true, each failed check forces it to false, and the checks are
the per-kind required markers, the sim kind's last-non-blank-line check
(skipped when there is no non-blank line), and the unconditional
`"ERROR" in content` check. -/
def validate_log_content (content : List Char) (test_type : TestType) : Bool :=
  let lines := contentLines content
  let kindOk : Bool :=
    match test_type with
    | .discon => strContains content "discon init complete!"
    | .xfe_control_sim =>
      let hasProgramDuration := strContains content "Program Duration:"
      let hasWriteDuration := strContains content "write Duration:"
      let lastOk : Bool :=
        match lines.getLast? with
        | some last_line => containsSub ("Closing Program".toList) last_line
        | none => true
      hasProgramDuration && hasWriteDuration && lastOk
  kindOk && ! strContains content "ERROR"

/-- Embedding of `validate_log_file` (launch_tests.py lines 265-306):
a missing log file (`none`) returns `False` immediately; otherwise the
content is validated. -/
def validate_log_file (log : Option (List Char)) (test_type : TestType) : Bool :=
  match log with
  | none => false
  | some content => validate_log_content content test_type

/-! ### The build coordinator (`build_project`) -/

/-- The filesystem mutations and subprocess launches of `build_project`. -/
inductive BuildEffect
  | removeBuildDir
  | removeCacheDir
  | makeBuildDir
  | exitUnsupportedOS
  | runConfigure
  | runCompile
deriving DecidableEq, Repr

/-- Embedding of the effectful skeleton of `build_project` (launch_tests.py
lines 90-194): every filesystem mutation and subprocess launch, in program
order. The whole body sits under `if rebuild:`. Inside it, the existing
build directory and the `~/.cache/cppcheck` cache are removed when present,
the build directory is recreated, on GitHub Actions an unrecognized runner
OS calls `sys.exit(1)` before configuring, and otherwise the CMake configure
step runs, followed (only when configure succeeds: `check=True` raises on a
non-zero exit) by the compile step. -/
def build_project_effects (rebuild build_dir_exists cache_dir_exists is_github_actions
    os_supported configure_succeeds : Bool) : List BuildEffect :=
  if rebuild then
    (if build_dir_exists then [.removeBuildDir] else []) ++
    (if cache_dir_exists then [.removeCacheDir] else []) ++
    [.makeBuildDir] ++
    (if is_github_actions && ! os_supported then [.exitUnsupportedOS]
     else [.runConfigure] ++ (if configure_succeeds then [.runCompile] else []))
  else []

/-- Embedding of the build-type selection inside `build_project`
(launch_tests.py lines 163-168): `build_type = "Release" if is_ci else
"Debug"` followed by an unconditional override, `"Release"` when not
building the executable (the DISCON shared-library test) and `"Debug"`
otherwise (the comment in the source reads `# Override for main
executable`). The shadowed first binding mirrors the overwritten Python
variable. -/
def selected_build_type (is_ci : Bool) (build_executable : Bool) : String :=
  let build_type := if is_ci then "Release" else "Debug"
  let build_type := if ! build_executable then "Release" else "Debug"
  build_type

/-! ### CI detection -/

/-- A process environment: ordered name/value pairs. -/
abbrev Env := List (String × String)

/-- `os.environ.get(name)`. -/
def envGet (env : Env) (name : String) : Option String :=
  match env with
  | [] => none
  | (n, v) :: rest => if n = name then some v else envGet rest name

/-- `name in os.environ`. -/
def envHas (env : Env) (name : String) : Bool :=
  (envGet env name).isSome

/-- The fixed CI variable-name list of `is_ci_environment`
(xflow_shared_functions.py lines 53-56). -/
def ci_vars : List String :=
  ["CI", "CONTINUOUS_INTEGRATION", "GITHUB_ACTIONS", "GITLAB_CI", "CIRCLECI", "TRAVIS",
   "JENKINS_HOME", "TEAMCITY_VERSION"]

/-- Embedding of `is_ci_environment` (xflow_shared_functions.py lines 51-57):
`any(var in os.environ for var in ci_vars)`. -/
def is_ci_environment (env : Env) : Bool :=
  ci_vars.any (fun v => envHas env v)

/-- Embedding of the inline CI flag computed inside `build_project`,
`sync_scripts_to_subdir`, `run_yapf` and the clang-tidy gates
(launch_tests.py lines 46-48, 93-95, 198, 314-316, 378, 435):
`is_github_actions = os.environ.get("GITHUB_ACTIONS") == "true"` and
`is_ci = is_github_actions or os.environ.get("CI") is not None`. -/
def launch_is_ci (env : Env) : Bool :=
  decide (envGet env "GITHUB_ACTIONS" = some "true") || envHas env "CI"

/-! ### Core-count detection (`get_nproc`) -/

/-- The host platforms distinguished by `platform.system()` in `get_nproc`. -/
inductive HostOS
  | darwin
  | windows
  | linux
deriving DecidableEq, Repr

/-- Embedding of `get_nproc` (launch_tests.py lines 28-37). On Darwin the
`sysctl -n hw.ncpu` subprocess runs with `check=True` and its stripped
stdout is parsed with `int(...)`; `sysctl_ncpu = none` models either the
subprocess failing (`CalledProcessError`) or non-numeric output
(`ValueError`), and `get_nproc` has no handler, so the exception propagates
(`Except.error`). On Windows and Linux the result is `os.cpu_count() or 1`,
where `cpu_count = none` models `os.cpu_count()` returning `None`. -/
def get_nproc (system : HostOS) (sysctl_ncpu : Option Nat) (cpu_count : Option Nat) :
    Except Unit Nat :=
  match system with
  | .darwin =>
    match sysctl_ncpu with
    | some n => .ok n
    | none => .error ()
  | .windows =>
    .ok (match cpu_count with
         | some n => if n = 0 then 1 else n
         | none => 1)
  | .linux =>
    .ok (match cpu_count with
         | some n => if n = 0 then 1 else n
         | none => 1)

/-! ### Standalone and copy-test session outcomes -/

/-- Observable outcome of a standalone run: its exit code and whether the
log file was validated. -/
structure StandaloneOutcome where
  exit_code : Int
  validation_ran : Bool
deriving DecidableEq, Repr

/-- Embedding of the tail of `run_standalone_build` (launch_tests.py lines
386-414) after the binary has run with exit code `binary_exit` and the
simulation log has content `log` (`none` when the file does not exist):
only for the sim kind (`test_type == "xfe_control_sim"`) is
`validate_log_file` called, and a failing validation overrides a zero exit
code to 1; for the discon kind the exit code is returned unchanged. -/
def run_standalone_tail (test_type : TestType) (binary_exit : Int)
    (log : Option (List Char)) : StandaloneOutcome :=
  match test_type with
  | .xfe_control_sim =>
    let log_ok := validate_log_file log .xfe_control_sim
    { exit_code := if log_ok = false ∧ binary_exit = 0 then 1 else binary_exit
      validation_ran := true }
  | .discon =>
    { exit_code := binary_exit
      validation_ran := false }

/-- Observable outcome of a copy-test session: whether the temp tree still
exists on disk, whether a fresh copy was made, the reported exit code, and
whether the log was validated. -/
structure CopyTestOutcome where
  temp_exists : Bool
  copied : Bool
  exit_code : Int
  validated : Bool
deriving Repr

/-- Embedding of `run_copy_test` (launch_tests.py lines 466-532) from the
recreate-or-skip step on. `rebuild` deletes the temp tree when it exists,
and it is recreated by `shutil.copytree` when absent, so after that step it
exists (a copy was made iff the tree was absent at that point). A missing
copied launcher script returns 1 early with the temp tree in place and no
validation. Otherwise the delegated run's exit code `launch_exit` is
combined with `validate_log_file` on the temp tree's simulation log: on a
passing validation the temp tree is removed (`shutil.rmtree`) and
`launch_exit` is returned unchanged; on a failing validation the temp tree
is preserved and the result is `launch_exit if launch_exit != 0 else 1`. -/
def run_copy_test_tail (test_type : TestType) (rebuild temp_exists0 launcher_exists : Bool)
    (launch_exit : Int) (log : Option (List Char)) : CopyTestOutcome :=
  let exists_after_delete := temp_exists0 && ! rebuild
  let copied := ! exists_after_delete
  if ! launcher_exists then
    { temp_exists := true, copied := copied, exit_code := 1, validated := false }
  else
    let log_ok := validate_log_file log test_type
    if log_ok then
      { temp_exists := false, copied := copied, exit_code := launch_exit, validated := true }
    else
      { temp_exists := true, copied := copied
        exit_code := if launch_exit ≠ 0 then launch_exit else 1
        validated := true }

/-! ### Basic facts about `prefAt`, `containsSub` and `splitNL` -/

theorem prefAt_iff (pat s : List Char) : prefAt pat s = true ↔ ∃ r, s = pat ++ r := by
  induction pat generalizing s with
  | nil => simp [prefAt]
  | cons p ps ih =>
    cases s with
    | nil => simp [prefAt]
    | cons c cs =>
      by_cases h : p = c
      · subst h
        simp [prefAt, ih]
      · simp only [prefAt, if_neg h, List.cons_append, List.cons.injEq]
        constructor
        · intro hfalse
          exact absurd hfalse (by simp)
        · rintro ⟨r, hc, -⟩
          exact absurd hc.symm h

theorem containsSub_iff (pat s : List Char) :
    containsSub pat s = true ↔ ∃ a b, s = a ++ pat ++ b := by
  induction s with
  | nil =>
    simp only [containsSub, prefAt_iff]
    constructor
    · rintro ⟨r, hr⟩
      exact ⟨[], r, by simp [hr]⟩
    · rintro ⟨a, b, hab⟩
      have h3 : a = [] ∧ pat = [] ∧ b = [] := by simpa using hab.symm
      exact ⟨[], by simp [h3.2.1]⟩
  | cons c cs ih =>
    simp only [containsSub, Bool.or_eq_true, prefAt_iff, ih]
    constructor
    · rintro (⟨r, hr⟩ | ⟨a, b, hab⟩)
      · exact ⟨[], r, by simp [hr]⟩
      · exact ⟨c :: a, b, by simp [hab]⟩
    · rintro ⟨a, b, hab⟩
      cases a with
      | nil =>
        exact Or.inl ⟨b, by simpa using hab⟩
      | cons x a' =>
        rcases List.cons.injEq .. ▸ hab with ⟨-, h2⟩
        exact Or.inr ⟨a', b, h2⟩

theorem splitNL_ne_nil (content : List Char) : splitNL content ≠ [] := by
  cases content with
  | nil => simp [splitNL]
  | cons c cs =>
    by_cases h : c = '\n'
    · simp [splitNL, h]
    · cases hs : splitNL cs with
      | nil => simp [splitNL, h, hs]
      | cons s ss => simp [splitNL, h, hs]

theorem splitNL_head (content : List Char) (s : List Char) (ss : List (List Char))
    (h : splitNL content = s :: ss) :
    ∃ rest, content = s ++ rest ∧ (rest = [] ∨ ∃ r, rest = '\n' :: r) := by
  induction content generalizing s ss with
  | nil =>
    simp only [splitNL, List.cons.injEq] at h
    exact ⟨[], by simp [h.1.symm]⟩
  | cons c cs ih =>
    by_cases hc : c = '\n'
    · subst hc
      simp only [splitNL, if_true, eq_self_iff_true, List.cons.injEq] at h
      exact ⟨'\n' :: cs, by simp [← h.1], Or.inr ⟨cs, rfl⟩⟩
    · cases hs : splitNL cs with
      | nil => exact absurd hs (splitNL_ne_nil cs)
      | cons s' ss' =>
        simp only [splitNL, if_neg hc, hs, List.cons.injEq] at h
        rcases ih s' ss' hs with ⟨rest, hrest, hshape⟩
        exact ⟨rest, by simp [← h.1, hrest], hshape⟩

theorem exists_parts_of_mem_splitNL (l content : List Char) (h : l ∈ splitNL content) :
    ∃ a b, content = a ++ l ++ b := by
  induction content generalizing l with
  | nil =>
    simp only [splitNL, List.mem_singleton] at h
    exact ⟨[], [], by simp [h]⟩
  | cons c cs ih =>
    by_cases hc : c = '\n'
    · subst hc
      simp only [splitNL, if_true, eq_self_iff_true, List.mem_cons] at h
      rcases h with h | h
      · exact ⟨[], '\n' :: cs, by simp [h]⟩
      · rcases ih l h with ⟨a, b, hab⟩
        exact ⟨'\n' :: a, b, by simp [hab]⟩
    · cases hs : splitNL cs with
      | nil => exact absurd hs (splitNL_ne_nil cs)
      | cons s' ss' =>
        simp only [splitNL, if_neg hc, hs, List.mem_cons] at h
        rcases h with h | h
        · rcases splitNL_head cs s' ss' hs with ⟨rest, hrest, -⟩
          exact ⟨[], rest, by simp [h, hrest]⟩
        · rcases ih l (hs ▸ List.mem_cons_of_mem s' h) with ⟨a, b, hab⟩
          exact ⟨c :: a, b, by simp [hab]⟩

theorem prefAt_of_prefAt_append (pat s rest : List Char)
    (hshape : rest = [] ∨ ∃ r, rest = '\n' :: r) :
    '\n' ∉ pat → prefAt pat (s ++ rest) = true → prefAt pat s = true := by
  induction pat generalizing s with
  | nil => intro _ _; simp [prefAt]
  | cons p ps ih =>
    intro hnl h
    cases s with
    | nil =>
      exfalso
      rcases hshape with hr | ⟨r, hr⟩
      · subst hr; simp [prefAt] at h
      · subst hr
        simp only [List.nil_append, prefAt] at h
        have hp : p ≠ '\n' := fun hpe => hnl (hpe ▸ List.mem_cons_self p ps)
        simp [if_neg hp] at h
    | cons a as =>
      simp only [List.cons_append, prefAt] at h ⊢
      by_cases hp : p = a
      · rw [if_pos hp] at h ⊢
        exact ih as (fun hm => hnl (List.mem_cons_of_mem p hm)) h
      · rw [if_neg hp] at h
        exact absurd h (by simp)

theorem containsSub_of_mem_splitNL (pat l content : List Char) (hl : l ∈ splitNL content)
    (h : containsSub pat l = true) : containsSub pat content = true := by
  rcases exists_parts_of_mem_splitNL l content hl with ⟨a, b, hab⟩
  rcases (containsSub_iff pat l).mp h with ⟨x, y, hxy⟩
  exact (containsSub_iff pat content).mpr ⟨a ++ x, y ++ b, by simp [hab, hxy]⟩

theorem exists_splitNL_line_of_containsSub (pat content : List Char) (hnl : '\n' ∉ pat)
    (hne : pat ≠ []) (h : containsSub pat content = true) :
    ∃ l ∈ splitNL content, containsSub pat l = true := by
  induction content with
  | nil =>
    exfalso
    rcases (containsSub_iff pat []).mp h with ⟨a, b, hab⟩
    have h3 : a = [] ∧ pat = [] ∧ b = [] := by simpa using hab.symm
    exact hne h3.2.1
  | cons c cs ih =>
    have h' : (prefAt pat (c :: cs) || containsSub pat cs) = true := h
    simp only [Bool.or_eq_true] at h'
    rcases h' with hp | hc
    · have hcnl : c ≠ '\n' := by
        intro hce
        subst hce
        cases pat with
        | nil => exact hne rfl
        | cons p ps =>
          have hpne : p ≠ '\n' := fun hpe => hnl (hpe ▸ List.mem_cons_self p ps)
          simp [prefAt, if_neg hpne] at hp
      cases hs : splitNL cs with
      | nil => exact absurd hs (splitNL_ne_nil cs)
      | cons s' ss' =>
        rcases splitNL_head cs s' ss' hs with ⟨rest, hrest, hshape⟩
        have hps : prefAt pat (c :: s') = true := by
          refine prefAt_of_prefAt_append pat (c :: s') rest hshape hnl ?_
          rw [List.cons_append, ← hrest]
          exact hp
        refine ⟨c :: s', ?_, ?_⟩
        · simp [splitNL, if_neg hcnl, hs]
        · cases s' with
          | nil => simpa [containsSub] using Or.inl hps
          | cons y ys => simpa [containsSub] using Or.inl hps
    · rcases ih hc with ⟨l, hl, hlc⟩
      by_cases hcn : c = '\n'
      · subst hcn
        exact ⟨l, by simp [splitNL, hl], hlc⟩
      · cases hs : splitNL cs with
        | nil => exact absurd hs (splitNL_ne_nil cs)
        | cons s' ss' =>
          rw [hs, List.mem_cons] at hl
          rcases hl with hl | hl
          · subst hl
            refine ⟨c :: l, by simp [splitNL, if_neg hcn, hs], ?_⟩
            cases l with
            | nil => simpa [containsSub] using Or.inr hlc
            | cons y ys => simpa [containsSub] using Or.inr hlc
          · exact ⟨l, by simp [splitNL, if_neg hcn, hs, hl], hlc⟩

theorem mem_of_containsSub (pat s : List Char) (c : Char) (h : containsSub pat s = true)
    (hc : c ∈ pat) : c ∈ s := by
  rcases (containsSub_iff pat s).mp h with ⟨a, b, hab⟩
  subst hab
  simp [hc]

theorem mem_splitNL_or_newline (content : List Char) (c : Char) (h : c ∈ content) :
    c = '\n' ∨ ∃ l ∈ splitNL content, c ∈ l := by
  induction content with
  | nil => simp at h
  | cons a cs ih =>
    rcases List.mem_cons.mp h with hca | hccs
    · by_cases ha : a = '\n'
      · exact Or.inl (hca.trans ha)
      · cases hs : splitNL cs with
        | nil => exact absurd hs (splitNL_ne_nil cs)
        | cons s' ss' =>
          exact Or.inr ⟨a :: s', by simp [splitNL, if_neg ha, hs], by simp [hca]⟩
    · rcases ih hccs with hnl | ⟨l, hl, hcl⟩
      · exact Or.inl hnl
      · by_cases ha : a = '\n'
        · exact Or.inr ⟨l, by simp [splitNL, ha, hl], hcl⟩
        · cases hs : splitNL cs with
          | nil => exact absurd hs (splitNL_ne_nil cs)
          | cons s' ss' =>
            rw [hs, List.mem_cons] at hl
            rcases hl with hl | hl
            · exact Or.inr ⟨a :: s', by simp [splitNL, if_neg ha, hs], by simp [hl ▸ hcl]⟩
            · exact Or.inr ⟨l, by simp [splitNL, if_neg ha, hs, hl], hcl⟩

theorem all_whitespace_of_contentLines_nil (content : List Char)
    (h : contentLines content = []) : ∀ c ∈ content, c.isWhitespace = true := by
  intro c hc
  have hall : ∀ l ∈ splitNL content, blankLine l = true := by
    intro l hl
    have := List.filter_eq_nil_iff.mp h l hl
    simpa using this
  rcases mem_splitNL_or_newline content c hc with hnl | ⟨l, hl, hcl⟩
  · subst hnl; decide
  · exact List.all_eq_true.mp (hall l hl) c hcl

theorem contentLines_ne_nil_of_marker (content : List Char)
    (h : strContains content "Program Duration:" = true) : contentLines content ≠ [] := by
  intro hnil
  have hPmem : 'P' ∈ content :=
    mem_of_containsSub _ content 'P' h (by decide)
  have := all_whitespace_of_contentLines_nil content hnil 'P' hPmem
  simp at this

/-- Unfolding of `validate_log_content` at the sim test kind. -/
theorem validate_sim_eq (content : List Char) :
    validate_log_content content .xfe_control_sim =
      (strContains content "Program Duration:" &&
       strContains content "write Duration:" &&
       (match (contentLines content).getLast? with
        | some last_line => containsSub ("Closing Program".toList) last_line
        | none => true) &&
       ! strContains content "ERROR") := rfl

/-- C3: for the sim test kind, validation returns ok=true iff the content
contains "Program Duration:" somewhere, contains "write Duration:" somewhere,
the last non-blank line contains "Closing Program", and no line anywhere
contains the substring "ERROR"; in particular any line containing "ERROR"
forces ok=false even when all required markers are present. -/
theorem claim_C3_sim_validation_iff (content : List Char) :
    validate_log_content content .xfe_control_sim = true ↔
      (strContains content "Program Duration:" = true ∧
       strContains content "write Duration:" = true ∧
       (∃ last_line, (contentLines content).getLast? = some last_line ∧
          containsSub ("Closing Program".toList) last_line = true) ∧
       ∀ l ∈ splitNL content, strContains l "ERROR" = false) := by
  rw [validate_sim_eq]
  simp only [Bool.and_eq_true, Bool.not_eq_true']
  constructor
  · rintro ⟨⟨⟨hPD, hWD⟩, hlast⟩, herr⟩
    refine ⟨hPD, hWD, ?_, ?_⟩
    · have hne := contentLines_ne_nil_of_marker content hPD
      have hg := List.getLast?_eq_getLast_of_ne_nil hne
      rw [hg] at hlast
      exact ⟨(contentLines content).getLast hne, hg, hlast⟩
    · intro l hl
      by_contra hcon
      have hl' : containsSub ("ERROR".toList) l = true := by
        cases hb : strContains l "ERROR" with
        | false => exact absurd hb hcon
        | true => exact hb
      have hco := containsSub_of_mem_splitNL ("ERROR".toList) l content hl hl'
      have herr' : containsSub ("ERROR".toList) content = false := herr
      rw [herr'] at hco
      exact absurd hco (by simp)
  · rintro ⟨hPD, hWD, ⟨last_line, hg, hcp⟩, herr⟩
    refine ⟨⟨⟨hPD, hWD⟩, ?_⟩, ?_⟩
    · rw [hg]
      exact hcp
    · by_contra hcon
      have htrue : containsSub ("ERROR".toList) content = true := by
        cases hb : strContains content "ERROR" with
        | false => exact absurd hb hcon
        | true => exact hb
      rcases exists_splitNL_line_of_containsSub ("ERROR".toList) content (by decide)
        (by decide) htrue with ⟨l, hl, hlc⟩
      have hfalse : containsSub ("ERROR".toList) l = false := herr l hl
      rw [hfalse] at hlc
      exact absurd hlc (by simp)

/-! ### Claim C5: last-line check is containment, not exact equality -/

/-- A log whose markers are present and whose last non-blank line properly
contains "Closing Program" among other text. -/
def c5_contained_log : List Char :=
  ("Program Duration: 1\nwrite Duration: 2\nA Closing Program B").toList

/-- A log whose last non-blank line does not contain "Closing Program". -/
def c5_bad_log : List Char :=
  ("Program Duration: 1\nwrite Duration: 2\nGoodbye").toList

/-- C5 counterexample: the claim says a last non-blank line that is not
exactly "Closing Program" yields ok=false, but a last content line that
merely contains it among other text passes validation. -/
theorem claim_C5_counterexample :
    validate_log_content c5_contained_log .xfe_control_sim = true ∧
    (contentLines c5_contained_log).getLast? = some ("A Closing Program B".toList) ∧
    "A Closing Program B".toList ≠ "Closing Program".toList := by
  refine ⟨by decide, by decide, by decide⟩

/-- C5 amended: for the sim test kind, any log with at least one non-blank
line whose last non-blank line does not CONTAIN "Closing Program" yields
ok=false; trailing blank lines are ignored, but containment (not exact
equality) is what the last content line must satisfy. -/
theorem claim_C5_amended_last_line (content last_line : List Char)
    (hg : (contentLines content).getLast? = some last_line)
    (hnc : containsSub ("Closing Program".toList) last_line = false) :
    validate_log_content content .xfe_control_sim = false := by
  rw [validate_sim_eq, hg]
  show ((strContains content "Program Duration:" && strContains content "write Duration:" &&
      containsSub ("Closing Program".toList) last_line) &&
      ! strContains content "ERROR") = false
  rw [hnc]
  simp

/-- C5 amended, witnessed at a concrete log. -/
theorem claim_C5_amended_witness :
    (contentLines c5_bad_log).getLast? = some ("Goodbye".toList) ∧
    containsSub ("Closing Program".toList) ("Goodbye".toList) = false ∧
    validate_log_content c5_bad_log .xfe_control_sim = false :=
  ⟨by decide, by decide,
    claim_C5_amended_last_line c5_bad_log ("Goodbye".toList) (by decide) (by decide)⟩

/-! ### Claims C2 and C10: the no-rebuild fast path -/

/-- C2: with rebuild=false and an existing build directory, the build step
performs zero filesystem deletions and issues no configure and no compile
subprocess calls: its effect trace is empty. -/
theorem claim_C2_reuse_is_passthrough (cache_dir_exists is_github_actions os_supported
    configure_succeeds : Bool) :
    build_project_effects false true cache_dir_exists is_github_actions os_supported
      configure_succeeds = [] := rfl

/-- C10: with rebuild=false the build step performs no action at all — no
deletion, no directory creation, no configure and no compile — even when the
build directory does not exist. -/
theorem claim_C10_no_rebuild_no_action (build_dir_exists cache_dir_exists is_github_actions
    os_supported configure_succeeds : Bool) :
    build_project_effects false build_dir_exists cache_dir_exists is_github_actions
      os_supported configure_succeeds = [] := rfl

/-! ### Claim C4: build type selection -/

/-- C4 counterexample: building the primary executable in CI selects "Debug",
not "Release" as the claim states — the CI-dependent assignment is dead code,
unconditionally overwritten by the target-kind branch. -/
theorem claim_C4_counterexample :
    selected_build_type true true = "Debug" ∧ ("Debug" : String) ≠ "Release" :=
  ⟨rfl, by decide⟩

/-- C4 amended: the selected build type is "Release" when building the
shared-library test target (build_executable=false) and "Debug" when
building the primary executable, regardless of CI state. -/
theorem claim_C4_amended_build_type (is_ci : Bool) :
    selected_build_type is_ci false = "Release" ∧
    selected_build_type is_ci true = "Debug" :=
  ⟨rfl, rfl⟩

/-! ### Claim C7: CI detection -/

/-- C7 counterexample: with only GITLAB_CI present, a recognized CI variable
of the fixed set is present (and `is_ci_environment` reports true), yet the
pipeline's gating flag is false — the pipeline's gates use the narrower
inline check, not the fixed-set membership the claim describes. -/
theorem claim_C7_counterexample :
    launch_is_ci [("GITLAB_CI", "1")] = false ∧
    is_ci_environment [("GITLAB_CI", "1")] = true := by
  refine ⟨by decide, by decide⟩

/-- C7 amended: the shared helper `is_ci_environment` is true iff one of the
fixed set of recognized CI variable names is present, but the flag actually
gating the pipeline (auto-formatting, script sync, toolchain selection,
build type) is the inline check GITHUB_ACTIONS == "true" or CI present,
which implies the fixed-set check yet is strictly narrower. -/
theorem claim_C7_amended_ci_flags (env : Env) :
    (is_ci_environment env = true ↔ ∃ name ∈ ci_vars, envHas env name = true) ∧
    (launch_is_ci env = true → is_ci_environment env = true) := by
  constructor
  · simp [is_ci_environment, List.any_eq_true]
  · intro h
    simp only [launch_is_ci, Bool.or_eq_true, decide_eq_true_eq] at h
    rcases h with h | h
    · have hhas : envHas env "GITHUB_ACTIONS" = true := by
        simp [envHas, h]
      exact List.any_eq_true.mpr ⟨"GITHUB_ACTIONS", by simp [ci_vars], hhas⟩
    · exact List.any_eq_true.mpr ⟨"CI", by simp [ci_vars], h⟩

/-- C7 amended, witnessed at a concrete environment. -/
theorem claim_C7_amended_witness :
    launch_is_ci [("CI", "")] = true ∧ is_ci_environment [("CI", "")] = true :=
  ⟨by decide, (claim_C7_amended_ci_flags [("CI", "")]).2 (by decide)⟩

/-! ### Claim C8: core-count detection -/

/-- C8 counterexample: when the macOS sysctl query fails, `get_nproc`
propagates the exception rather than falling back to 1. -/
theorem claim_C8_counterexample :
    get_nproc .darwin none (some 8) = Except.error () ∧
    get_nproc .darwin none (some 8) ≠ Except.ok 1 :=
  ⟨rfl, fun h => Except.noConfusion h⟩

/-- C8 amended: on Windows and Linux the core-count query returns a positive
integer, falling back to 1 when `os.cpu_count()` detection fails, without
raising; on macOS, failure of the sysctl query propagates as an exception
rather than yielding 1. -/
theorem claim_C8_amended_nproc (sysctl_ncpu cpu_count : Option Nat) :
    (∃ n, get_nproc .windows sysctl_ncpu cpu_count = .ok n ∧ 0 < n) ∧
    (∃ n, get_nproc .linux sysctl_ncpu cpu_count = .ok n ∧ 0 < n) ∧
    get_nproc .darwin none cpu_count = .error () := by
  refine ⟨?_, ?_, rfl⟩ <;>
  · cases cpu_count with
    | none => exact ⟨1, rfl, Nat.one_pos⟩
    | some n =>
      by_cases hn : n = 0
      · exact ⟨1, by simp [get_nproc, hn], Nat.one_pos⟩
      · exact ⟨n, by simp [get_nproc, hn], Nat.pos_of_ne_zero hn⟩

/-! ### Claim C9: standalone discon runs are never log-validated -/

/-- C9: in standalone mode the discon test kind never validates the log file
and returns exactly the binary's exit code whatever the log contents; log
validation (with its exit-code override to 1) runs in standalone mode only
for the sim kind, while a discon run is log-validated via the copy-test
path. -/
theorem claim_C9_standalone_discon_no_validation (binary_exit : Int)
    (log : Option (List Char)) (rebuild temp_exists0 : Bool) (launch_exit : Int) :
    (run_standalone_tail .discon binary_exit log).validation_ran = false ∧
    (run_standalone_tail .discon binary_exit log).exit_code = binary_exit ∧
    (run_standalone_tail .xfe_control_sim binary_exit log).validation_ran = true ∧
    (run_copy_test_tail .discon rebuild temp_exists0 true launch_exit log).validated = true := by
  refine ⟨rfl, rfl, rfl, ?_⟩
  simp only [run_copy_test_tail, Bool.not_true, Bool.false_eq_true, if_false]
  by_cases hok : validate_log_file log .discon = true
  · simp [hok]
  · simp [hok]

/-! ### Claims C1 and C6: sandbox cleanup-or-preserve -/

/-- C1: a copy-test session whose log validation fails preserves the temp
tree on disk and reports a non-zero exit code: the delegated run's exit code
when that is non-zero, and 1 when the delegated run returned 0. -/
theorem claim_C1_copy_test_failure_preserves (test_type : TestType)
    (rebuild temp_exists0 : Bool) (launch_exit : Int) (log : Option (List Char))
    (hval : validate_log_file log test_type = false) :
    (run_copy_test_tail test_type rebuild temp_exists0 true launch_exit log).temp_exists
        = true ∧
    (run_copy_test_tail test_type rebuild temp_exists0 true launch_exit log).exit_code
        ≠ 0 ∧
    (launch_exit ≠ 0 →
      (run_copy_test_tail test_type rebuild temp_exists0 true launch_exit log).exit_code
        = launch_exit) ∧
    (launch_exit = 0 →
      (run_copy_test_tail test_type rebuild temp_exists0 true launch_exit log).exit_code
        = 1) := by
  simp only [run_copy_test_tail, Bool.not_true, Bool.false_eq_true, if_false, hval]
  by_cases h0 : launch_exit = 0
  · simp [h0]
  · simp [h0]

/-- C1, witnessed: a missing log file fails validation, the temp tree is
preserved, and a delegated exit code of 0 is overridden to 1. -/
theorem claim_C1_witness :
    validate_log_file none TestType.xfe_control_sim = false ∧
    (run_copy_test_tail .xfe_control_sim false false true 0 none).temp_exists = true ∧
    (run_copy_test_tail .xfe_control_sim false false true 0 none).exit_code = 1 :=
  ⟨rfl,
    (claim_C1_copy_test_failure_preserves .xfe_control_sim false false 0 none rfl).1,
    (claim_C1_copy_test_failure_preserves .xfe_control_sim false false 0 none rfl).2.2.2 rfl⟩

/-- C6: a copy-test session whose log validation passes removes the temp
tree and returns the delegated run's exit code unchanged. -/
theorem claim_C6_copy_test_success_cleans (test_type : TestType)
    (rebuild temp_exists0 : Bool) (launch_exit : Int) (log : Option (List Char))
    (hval : validate_log_file log test_type = true) :
    (run_copy_test_tail test_type rebuild temp_exists0 true launch_exit log).temp_exists
        = false ∧
    (run_copy_test_tail test_type rebuild temp_exists0 true launch_exit log).exit_code
        = launch_exit := by
  simp [run_copy_test_tail, hval]

/-- C6, witnessed: a discon log containing its marker passes validation, the
temp tree is removed, and the delegated exit code 7 is returned unchanged. -/
theorem claim_C6_witness :
    validate_log_file (some ("discon init complete!".toList)) TestType.discon = true ∧
    (run_copy_test_tail .discon false false true 7
        (some ("discon init complete!".toList))).temp_exists = false ∧
    (run_copy_test_tail .discon false false true 7
        (some ("discon init complete!".toList))).exit_code = 7 :=
  ⟨by decide,
    (claim_C6_copy_test_success_cleans .discon false false 7
      (some ("discon init complete!".toList)) (by decide)).1,
    (claim_C6_copy_test_success_cleans .discon false false 7
      (some ("discon init complete!".toList)) (by decide)).2⟩

end XfeControlSim
